import Mathlib

/-!
Shallow embedding of the robinhood-cli safety core (`src/rhx/safety.py`,
`src/rhx/models.py`, `src/rhx/errors.py`) and proofs about it.

Conventions of the embedding:
* Python floats are modelled as rationals (`ℚ`); none of the verified
  claims depends on binary floating-point rounding.
* Python strings are modelled as `List Char`; `None`-able values as `Option`.
* Clock inputs that the Python code reads from `datetime.now` are passed
  explicitly: `day : ℕ` stands for the UTC calendar day used as the ledger
  key, `now : ℕ` for the local wall-clock time in seconds since midnight.
* A raised `CLIError(code=...)` is modelled as `Except.error code`; the
  human-readable message is not modelled.
* The sqlite `daily_notional` table (one row per day, `day` primary key)
  is modelled as an association list updated by the same upsert logic.
-/

/-- Error codes from `rhx/errors.py` (`class ErrorCode`). -/
inductive ErrorCode where
  | VALIDATION_ERROR
  | AUTH_REQUIRED
  | MFA_REQUIRED
  | RATE_LIMITED
  | BROKER_REJECTED
  | LIVE_MODE_OFF
  | SAFETY_POLICY_BLOCK
  | INTERNAL_ERROR
deriving DecidableEq, Repr

/-- Uppercasing of a symbol, modelling Python `str.upper()` on symbol strings. -/
def upperSym (s : List Char) : List Char := s.map Char.toUpper

/-- `SafetyEngine.check_symbol` from `rhx/safety.py`: the allow-list test
runs first, then the block-list test; both raise `SAFETY_POLICY_BLOCK`. -/
def check_symbol (allow block : List (List Char)) (symbol : List Char) :
    Except ErrorCode Unit :=
  let normalized := upperSym symbol
  let allowU := allow.map upperSym
  let blockU := block.map upperSym
  if allowU ≠ [] ∧ normalized ∉ allowU then .error .SAFETY_POLICY_BLOCK
  else if normalized ∈ blockU then .error .SAFETY_POLICY_BLOCK
  else .ok ()

/-- Python `str.strip()` on a char list (drop whitespace at both ends). -/
def stripChars (s : List Char) : List Char :=
  ((s.dropWhile Char.isWhitespace).reverse.dropWhile Char.isWhitespace).reverse

/-- Split a char list on every occurrence of `c`, like Python `str.split(c)`. -/
def splitOnChar (c : Char) : List Char → List (List Char)
  | [] => [[]]
  | x :: xs =>
    let rest := splitOnChar c xs
    if x = c then [] :: rest
    else
      match rest with
      | [] => [[x]]
      | r :: rs => (x :: r) :: rs

/-- Numeric value of a digit string (callers check `isDigit` first). -/
def digitsToNat (s : List Char) : ℕ :=
  s.foldl (fun a c => 10 * a + (c.toNat - 48)) 0

/-- A `%H`/`%M`-style field: one or two digits, nothing else. -/
def parseTwoDigit (s : List Char) : Option ℕ :=
  if s ≠ [] ∧ s.length ≤ 2 ∧ s.all Char.isDigit = true then some (digitsToNat s)
  else none

/-- `datetime.strptime(s, "%H:%M").time()` as seconds since midnight:
one-or-two-digit hour `≤ 23`, a colon, one-or-two-digit minute `≤ 59`,
and no unconverted data; anything else is a `ValueError` (`none`). -/
def strptimeHM (s : List Char) : Option ℕ :=
  match splitOnChar ':' s with
  | [h, m] =>
    match parseTwoDigit h, parseTwoDigit m with
    | some hv, some mv =>
      if hv ≤ 23 ∧ mv ≤ 59 then some ((hv * 60 + mv) * 60) else none
    | _, _ => none
  | _ => none

/-- The combined parse of a trading-window string into start and end times:
strip, require a dash, `split("-", 1)`, parse both halves with `%H:%M`. -/
def parseWindow (s : List Char) : Option (ℕ × ℕ) :=
  let window := stripChars s
  if window.contains '-' then
    match strptimeHM (window.takeWhile (fun c => c != '-')),
        strptimeHM ((window.dropWhile (fun c => c != '-')).drop 1) with
    | some a, some b => some (a, b)
    | _, _ => none
  else none

/-- `SafetyEngine.check_trading_window` from `rhx/safety.py`. The Python
guard `if not self.config.trading_window` passes on `None` and on the
empty string; a missing dash or a `strptime` failure is a
`VALIDATION_ERROR`; an out-of-window time is a `SAFETY_POLICY_BLOCK`,
with the inclusive / midnight-wrapping comparison of the source. -/
def check_trading_window (tw : Option (List Char)) (now : ℕ) :
    Except ErrorCode Unit :=
  match tw with
  | none => .ok ()
  | some s =>
    if s = [] then .ok ()
    else
      let window := stripChars s
      if window.contains '-' then
        match strptimeHM (window.takeWhile (fun c => c != '-')),
            strptimeHM ((window.dropWhile (fun c => c != '-')).drop 1) with
        | some tStart, some tEnd =>
          if tStart ≤ tEnd then
            if tStart ≤ now ∧ now ≤ tEnd then .ok ()
            else .error .SAFETY_POLICY_BLOCK
          else
            if now ≥ tStart ∨ now ≤ tEnd then .ok ()
            else .error .SAFETY_POLICY_BLOCK
        | _, _ => .error .VALIDATION_ERROR
      else .error .VALIDATION_ERROR

/-- The `daily_notional` table: `day TEXT PRIMARY KEY, notional REAL`,
as an association list with at most one row per day in practice. -/
def Ledger : Type := List (ℕ × ℚ)

/-- `SafetyEngine.today_notional`: the stored value for `day`, else `0.0`. -/
def today_notional (day : ℕ) : Ledger → ℚ
  | [] => 0
  | (d, v) :: rest => if d = day then v else today_notional day rest

/-- `SafetyEngine.record_notional`: the sqlite upsert
`INSERT ... ON CONFLICT(day) DO UPDATE SET notional = notional + excluded.notional` —
add to the existing row for `day`, or append a fresh row at `amount`. -/
def record_notional (day : ℕ) (amount : ℚ) : Ledger → Ledger
  | [] => [(day, amount)]
  | (d, v) :: rest =>
    if d = day then (d, v + amount) :: rest
    else (d, v) :: record_notional day amount rest

/-- Order side, the `Literal["buy", "sell"]` of `rhx/models.py`. -/
inductive Side where
  | buy
  | sell
deriving DecidableEq, Repr

/-- `Literal["market", "limit", "stop_limit"]` of `OrderIntentStock`. -/
inductive StockOrderType where
  | market
  | limit
  | stop_limit
deriving DecidableEq, Repr

/-- `Literal["market", "limit"]` of `OrderIntentCrypto`. -/
inductive CryptoOrderType where
  | market
  | limit
deriving DecidableEq, Repr

/-- `Literal["limit", "stop_limit"]` of `OrderIntentOptionSingle`. -/
inductive OptionOrderType where
  | limit
  | stop_limit
deriving DecidableEq, Repr

/-- `Literal["gtc", "gfd", "ioc", "fok", "opg"]`. -/
inductive TimeInForce where
  | gtc
  | gfd
  | ioc
  | fok
  | opg
deriving DecidableEq, Repr

/-- `Literal["quantity", "price"]` of `OrderIntentCrypto.amount_in`. -/
inductive AmountIn where
  | quantity
  | price
deriving DecidableEq, Repr

/-- `Literal["call", "put", "both"]`. -/
inductive OptionKind where
  | call
  | put
  | both
deriving DecidableEq, Repr

/-- `Literal["open", "close"]` (`open`/`close` are Lean keywords). -/
inductive PositionEffect where
  | openPosition
  | closePosition
deriving DecidableEq, Repr

/-- `Literal["credit", "debit"]`. -/
inductive CreditOrDebit where
  | credit
  | debit
deriving DecidableEq, Repr

/-- `OrderIntentStock` from `rhx/models.py` (field values before/after the
`model_validator`; the validator itself is `OrderIntentStock.validate_order`). -/
structure OrderIntentStock where
  symbol : List Char
  side : Side
  order_type : StockOrderType
  quantity : Option ℚ
  notional_usd : Option ℚ
  limit_price : Option ℚ
  stop_price : Option ℚ
  time_in_force : TimeInForce
  extended_hours : Bool
deriving DecidableEq, Repr

/-- The `model_validator(mode="after")` of `OrderIntentStock`: a raised
`ValueError` surfaces as a pydantic `ValidationError`, modelled as
`Except.error .VALIDATION_ERROR`; on success pydantic keeps the instance. -/
def OrderIntentStock.validate_order (s : OrderIntentStock) :
    Except ErrorCode OrderIntentStock :=
  if s.quantity = none ∧ s.notional_usd = none then .error .VALIDATION_ERROR
  else if s.order_type = .limit ∧ s.limit_price = none then .error .VALIDATION_ERROR
  else if s.order_type = .stop_limit ∧ (s.limit_price = none ∨ s.stop_price = none) then
    .error .VALIDATION_ERROR
  else .ok s

/-- `OrderIntentCrypto` from `rhx/models.py`. -/
structure OrderIntentCrypto where
  symbol : List Char
  side : Side
  order_type : CryptoOrderType
  amount_in : AmountIn
  quantity : Option ℚ
  notional_usd : Option ℚ
  limit_price : Option ℚ
  time_in_force : TimeInForce
deriving DecidableEq, Repr

/-- The `model_validator(mode="after")` of `OrderIntentCrypto`. -/
def OrderIntentCrypto.validate_order (c : OrderIntentCrypto) :
    Except ErrorCode OrderIntentCrypto :=
  if c.amount_in = .quantity ∧ c.quantity = none then .error .VALIDATION_ERROR
  else if c.amount_in = .price ∧ c.notional_usd = none then .error .VALIDATION_ERROR
  else if c.order_type = .limit ∧ c.limit_price = none then .error .VALIDATION_ERROR
  else .ok c

/-- `OrderIntentOptionSingle` from `rhx/models.py`; `quantity : ℤ` models the
Python `int` with its `Field(ge=1)` bound checked in the validator. -/
structure OrderIntentOptionSingle where
  side : Side
  order_type : OptionOrderType
  position_effect : PositionEffect
  credit_or_debit : CreditOrDebit
  symbol : List Char
  quantity : ℤ
  expiration_date : List Char
  strike : ℚ
  option_type : OptionKind
  price : Option ℚ
  limit_price : Option ℚ
  stop_price : Option ℚ
  time_in_force : TimeInForce
deriving DecidableEq, Repr

/-- Construct-time validation of `OrderIntentOptionSingle`: the pydantic
`Field(ge=1)` bound on `quantity` plus its `model_validator`. -/
def OrderIntentOptionSingle.validate_order (o : OrderIntentOptionSingle) :
    Except ErrorCode OrderIntentOptionSingle :=
  if ¬ (1 ≤ o.quantity) then .error .VALIDATION_ERROR
  else if o.order_type = .limit ∧ o.price = none then .error .VALIDATION_ERROR
  else if o.order_type = .stop_limit ∧ (o.limit_price = none ∨ o.stop_price = none) then
    .error .VALIDATION_ERROR
  else .ok o

/-- `OptionLeg` from `rhx/models.py`. -/
structure OptionLeg where
  expirationDate : List Char
  strike : ℚ
  optionType : OptionKind
  effect : PositionEffect
  action : Side
deriving DecidableEq, Repr

/-- `OrderIntentOptionSpread` from `rhx/models.py`. -/
structure OrderIntentOptionSpread where
  direction : CreditOrDebit
  symbol : List Char
  quantity : ℤ
  price : ℚ
  spread : List OptionLeg
  time_in_force : TimeInForce
deriving DecidableEq, Repr

/-- Construct-time validation of `OrderIntentOptionSpread`: the pydantic
`Field(ge=1)`, `Field(gt=0)` and `Field(min_length=2)` bounds. -/
def OrderIntentOptionSpread.validate_order (sp : OrderIntentOptionSpread) :
    Except ErrorCode OrderIntentOptionSpread :=
  if 1 ≤ sp.quantity ∧ 0 < sp.price ∧ 2 ≤ sp.spread.length then .ok sp
  else .error .VALIDATION_ERROR

/-- The tagged union of intents accepted by `SafetyEngine.enforce` and
`SafetyEngine.estimate_notional`. -/
inductive OrderIntent where
  | stock : OrderIntentStock → OrderIntent
  | crypto : OrderIntentCrypto → OrderIntent
  | optionSingle : OrderIntentOptionSingle → OrderIntent
  | optionSpread : OrderIntentOptionSpread → OrderIntent
deriving DecidableEq, Repr

/-- `getattr(intent, "symbol")`: every variant carries a symbol. -/
def OrderIntent.symbol : OrderIntent → List Char
  | .stock s => s.symbol
  | .crypto c => c.symbol
  | .optionSingle o => o.symbol
  | .optionSpread sp => sp.symbol

/-- Construct-time validation of a whole intent, dispatching to the
variant's validator. -/
def validate_intent : OrderIntent → Except ErrorCode OrderIntent
  | .stock s => (s.validate_order).map .stock
  | .crypto c => (c.validate_order).map .crypto
  | .optionSingle o => (o.validate_order).map .optionSingle
  | .optionSpread sp => (sp.validate_order).map .optionSpread

/-- Python truthiness of an optional float: `None` and `0.0` are falsy.
The estimator's branch guards (`if intent.notional_usd:`,
`if intent.quantity and intent.limit_price:`) test exactly this. -/
def truthy : Option ℚ → Bool
  | none => false
  | some x => x != 0

/-- `SafetyEngine.estimate_notional` from `rhx/safety.py`. Note the stock
branches test value truthiness only, never `order_type`, and the
`quantity and limit_price` branch is tried before the `stop_price` one. -/
def estimate_notional : OrderIntent → ℚ
  | .stock s =>
    if truthy s.notional_usd then s.notional_usd.getD 0
    else if truthy s.quantity && truthy s.limit_price then
      s.quantity.getD 0 * s.limit_price.getD 0
    else if truthy s.quantity && truthy s.stop_price then
      s.quantity.getD 0 * s.stop_price.getD 0
    else 0
  | .crypto c =>
    if truthy c.notional_usd then c.notional_usd.getD 0
    else if truthy c.quantity && truthy c.limit_price then
      c.quantity.getD 0 * c.limit_price.getD 0
    else 0
  | .optionSingle o =>
    let px := match o.price with
      | some p => some p
      | none => o.limit_price
    px.getD 0 * (o.quantity : ℚ) * 100
  | .optionSpread sp => sp.price * (sp.quantity : ℚ) * 100

/-- `SafetyConfig` from `rhx/config.py`. -/
structure SafetyConfig where
  live_mode : Bool
  live_unlock_ttl_seconds : ℕ
  max_order_notional : Option ℚ
  max_daily_notional : Option ℚ
  allow_symbols : List (List Char)
  block_symbols : List (List Char)
  trading_window : Option (List Char)
deriving DecidableEq, Repr

/-- `SafetyCheckResult` from `rhx/safety.py`. -/
structure SafetyCheckResult where
  estimated_notional : ℚ
deriving DecidableEq, Repr

/-- The per-order cap test inlined in `SafetyEngine.enforce`:
`if self.config.max_order_notional is not None and estimated > self.config.max_order_notional`. -/
def check_order_cap (maxOrder : Option ℚ) (estimated : ℚ) : Except ErrorCode Unit :=
  match maxOrder with
  | some cap => if estimated > cap then .error .SAFETY_POLICY_BLOCK else .ok ()
  | none => .ok ()

/-- The per-day cap test inlined in `SafetyEngine.enforce`:
when `max_daily_notional` is set, block iff `today() + estimated` exceeds it. -/
def check_daily_cap (maxDaily : Option ℚ) (todayAmt estimated : ℚ) :
    Except ErrorCode Unit :=
  match maxDaily with
  | some cap =>
    if todayAmt + estimated > cap then .error .SAFETY_POLICY_BLOCK else .ok ()
  | none => .ok ()

/-- `SafetyEngine.enforce` from `rhx/safety.py`: symbol policy, trading
window, per-order cap, per-day cap, in that order, failing fast; the
ledger is threaded through unchanged because `enforce` only reads it
(`today_notional` is a SELECT). -/
def enforce (cfg : SafetyConfig) (day now : ℕ) (intent : OrderIntent)
    (l : Ledger) : Except ErrorCode SafetyCheckResult × Ledger :=
  match check_symbol cfg.allow_symbols cfg.block_symbols intent.symbol with
  | .error e => (.error e, l)
  | .ok _ =>
    match check_trading_window cfg.trading_window now with
    | .error e => (.error e, l)
    | .ok _ =>
      let estimated := estimate_notional intent
      match check_order_cap cfg.max_order_notional estimated with
      | .error e => (.error e, l)
      | .ok _ =>
        match check_daily_cap cfg.max_daily_notional (today_notional day l) estimated with
        | .error e => (.error e, l)
        | .ok _ => (.ok ⟨estimated⟩, l)

/-- The live-unlock row: at most one `(token, expires_at)` at a time. -/
def TokenState : Type := Option (List Char × ℕ)

/-- Modelled from the spec: `SafetyEngine.issue_live_unlock` is invoked by
`rhx/cli.py` and by `tests/test_safety_engine.py` but its body is not
among the provided sources. Per §4.4, issuing replaces any prior stored
token/expiry with the fresh token and `now + ttl`, returning both; the
fresh opaque token is passed in as `tok` to keep the model deterministic. -/
def issue_live_unlock (tok : List Char) (now ttl : ℕ) (_st : TokenState) :
    (List Char × ℕ) × TokenState :=
  ((tok, now + ttl), some (tok, now + ttl))

/-- Modelled from the spec: `SafetyEngine.require_live_authorization`
(spec `requireAuthorization`) is not among the provided sources. Per
§4.4 it fails with `SAFETY_POLICY_BLOCK` if no token row exists, if the
supplied token is null or differs from the stored one, or if
`now ≥ expiresAt`; it succeeds otherwise and transitions no state. -/
def require_live_authorization (supplied : Option (List Char)) (now : ℕ)
    (st : TokenState) : Except ErrorCode Unit :=
  match st with
  | none => .error .SAFETY_POLICY_BLOCK
  | some (tok, expiresAt) =>
    match supplied with
    | none => .error .SAFETY_POLICY_BLOCK
    | some s =>
      if s = tok ∧ now < expiresAt then .ok () else .error .SAFETY_POLICY_BLOCK

/-- Modelled from the spec: `SafetyEngine.clear_live_unlock` is not among
the provided sources. Per §4.4 it deletes the stored token row
unconditionally. -/
def clear_live_unlock (_st : TokenState) : TokenState := none

/-- Modelled from the spec: `SafetyEngine.live_unlock_status` (spec
`status`) is not among the provided sources. Per §4.4, `active` is true
iff a token row exists and `now < expiresAt`; absence of a row yields
`(false, none)`. -/
def live_unlock_status (now : ℕ) (st : TokenState) : Bool × Option ℕ :=
  match st with
  | none => (false, none)
  | some (_, expiresAt) => (decide (now < expiresAt), some expiresAt)

/-- Nonnegativity of an optional amount (`None` counts as nonnegative). -/
def optNonneg : Option ℚ → Prop
  | none => True
  | some x => 0 ≤ x

/-- All numeric amount/price fields of the intent are nonnegative. The
pydantic models place no sign constraint on most of these fields, so this
is a genuine extra hypothesis, not a consequence of validation. -/
def nonnegFields : OrderIntent → Prop
  | .stock s =>
    optNonneg s.quantity ∧ optNonneg s.notional_usd ∧
      optNonneg s.limit_price ∧ optNonneg s.stop_price
  | .crypto c => optNonneg c.quantity ∧ optNonneg c.notional_usd ∧ optNonneg c.limit_price
  | .optionSingle o => optNonneg o.price ∧ optNonneg o.limit_price ∧ (0 : ℤ) ≤ o.quantity
  | .optionSpread sp => 0 ≤ sp.price ∧ (0 : ℤ) ≤ sp.quantity

/-- The symbol string AAPL, used by the concrete instances below. -/
def symAAPL : List Char := ['A', 'A', 'P', 'L']

/-- A market stock intent with both `quantity` and `notional_usd` set. -/
def stockBothSet : OrderIntentStock :=
  ⟨symAAPL, .buy, .market, some 1, some 5, none, none, .gtc, false⟩

/-- A valid stop-limit stock intent: quantity 2, limit 10, stop 12. -/
def stockStopLimitIntent : OrderIntentStock :=
  ⟨symAAPL, .buy, .stop_limit, some 2, none, some 10, some 12, .gtc, false⟩

/-- A market stock intent funded by a negative `notional_usd`. -/
def stockNegNotional : OrderIntentStock :=
  ⟨symAAPL, .buy, .market, none, some (-5), none, none, .gtc, false⟩

/-- A market stock intent funded by `notional_usd = 55`. -/
def stockMarketNotional : OrderIntentStock :=
  ⟨symAAPL, .buy, .market, none, some 55, none, none, .gtc, false⟩

/-- A limit stock intent for one share at 100. -/
def stockLimit100 : OrderIntentStock :=
  ⟨symAAPL, .buy, .limit, some 1, none, some 100, none, .gtc, false⟩

/-- A configuration with `max_order_notional = 500`, `max_daily_notional = 700`,
no symbol lists and no trading window. -/
def cfgCaps : SafetyConfig := ⟨false, 900, some 500, some 700, [], [], none⟩

/-- The upsert adds exactly `a` to the row for `day`. -/
theorem today_record_self (day : ℕ) (a : ℚ) (l : Ledger) :
    today_notional day (record_notional day a l) = today_notional day l + a := by
  induction l with
  | nil => simp [record_notional, today_notional]
  | cons hd tl ih =>
    obtain ⟨d, v⟩ := hd
    by_cases h : d = day
    · subst h
      simp [record_notional, today_notional]
    · simp [record_notional, today_notional, h, ih]

/-- Recording on one day leaves every other day's total unchanged. -/
theorem today_record_other (day d2 : ℕ) (h : d2 ≠ day) (a : ℚ) (l : Ledger) :
    today_notional d2 (record_notional day a l) = today_notional d2 l := by
  induction l with
  | nil => simp [record_notional, today_notional, Ne.symm h]
  | cons hd tl ih =>
    obtain ⟨d, v⟩ := hd
    by_cases hd1 : d = day
    · subst hd1
      simp [record_notional, today_notional, Ne.symm h]
    · simp [record_notional, today_notional, hd1, ih]

/-- Any option value with nonnegative content has nonnegative `getD 0`. -/
theorem optNonneg_getD {o : Option ℚ} (h : optNonneg o) : 0 ≤ o.getD 0 := by
  cases o with
  | none => simp
  | some x => simpa [optNonneg] using h

/-- C9: within one UTC day, `record` upserts — a first call creates the
day's row and each later call adds to it, so `record 100; record 50`
makes `today` return `150`; a day with no row reads `0`; rows are keyed
by the day, so recording on one day does not affect another day. -/
theorem ledger_accumulate_C9 (l : Ledger) (day d2 : ℕ) (a b : ℚ) :
    today_notional day (record_notional day b (record_notional day a l)) =
      today_notional day l + a + b ∧
    today_notional day ([] : Ledger) = 0 ∧
    today_notional day (record_notional day 50 (record_notional day 100 ([] : Ledger))) = 150 ∧
    (d2 ≠ day → today_notional d2 (record_notional day a l) = today_notional d2 l) := by
  refine ⟨?_, rfl, ?_, fun h => today_record_other day d2 h a l⟩
  · rw [today_record_self, today_record_self]
  · rw [today_record_self, today_record_self]
    norm_num [today_notional]

/-- Witness for C9 at day 0, a fresh ledger, amounts 100 and 50. -/
theorem ledger_accumulate_C9_witness :
    today_notional 0 (record_notional 0 50 (record_notional 0 100 ([] : Ledger))) = 150 ∧
    today_notional 1 (record_notional 0 100 ([] : Ledger)) = today_notional 1 ([] : Ledger) := by
  have h := ledger_accumulate_C9 ([] : Ledger) 0 1 100 50
  exact ⟨h.2.2.1, h.2.2.2 (by decide)⟩

/-- C10: `record_notional` validates nothing — it adds exactly its
argument to the day's row, so a negative amount strictly decreases the
value `today_notional` later returns. -/
theorem record_no_validation_C10 (l : Ledger) (day : ℕ) (a : ℚ) :
    today_notional day (record_notional day a l) = today_notional day l + a ∧
    (a < 0 → today_notional day (record_notional day a l) < today_notional day l) := by
  refine ⟨today_record_self day a l, fun ha => ?_⟩
  rw [today_record_self]
  linarith

/-- Witness for C10 at day 0, a fresh ledger, amount -5. -/
theorem record_no_validation_C10_witness :
    (-5 : ℚ) < 0 ∧
    today_notional 0 (record_notional 0 (-5) ([] : Ledger)) < today_notional 0 ([] : Ledger) := by
  have h := record_no_validation_C10 ([] : Ledger) 0 (-5)
  exact ⟨by norm_num, h.2 (by norm_num)⟩

/-- C6: `enforce` never mutates the daily-notional ledger — whatever it
returns, the ledger it hands back is the one it was given; only
`record_notional` writes. -/
theorem enforce_frame_C6 (cfg : SafetyConfig) (day now : ℕ) (intent : OrderIntent)
    (l : Ledger) : (enforce cfg day now intent l).2 = l := by
  unfold enforce
  split
  · rfl
  · split
    · rfl
    · dsimp only
      split
      · rfl
      · split <;> rfl

/-- C1: the live-unlock token round trip, against the spec-modelled gate:
issuing with TTL `ttl` at `t0` returns and stores `(tok, t0 + ttl)`;
authorization succeeds exactly on the stored token before expiry and
fails with `SAFETY_POLICY_BLOCK` on a missing row, a null or different
token, or `now ≥ expiresAt`; after `clear`, authorization fails and the
status is `(false, none)`. -/
theorem live_unlock_C1 (tok : List Char) (t0 ttl now : ℕ) (st : TokenState)
    (_httl : 1 ≤ ttl) :
    issue_live_unlock tok t0 ttl st = ((tok, t0 + ttl), some (tok, t0 + ttl)) ∧
    (now < t0 + ttl →
      require_live_authorization (some tok) now (some (tok, t0 + ttl)) = .ok ()) ∧
    (t0 + ttl ≤ now →
      require_live_authorization (some tok) now (some (tok, t0 + ttl)) =
        .error .SAFETY_POLICY_BLOCK) ∧
    require_live_authorization none now (some (tok, t0 + ttl)) =
      .error .SAFETY_POLICY_BLOCK ∧
    (∀ s, s ≠ tok →
      require_live_authorization (some s) now (some (tok, t0 + ttl)) =
        .error .SAFETY_POLICY_BLOCK) ∧
    (∀ sup, require_live_authorization sup now none = .error .SAFETY_POLICY_BLOCK) ∧
    require_live_authorization (some tok) now
      (clear_live_unlock (some (tok, t0 + ttl))) = .error .SAFETY_POLICY_BLOCK ∧
    live_unlock_status now (clear_live_unlock (some (tok, t0 + ttl))) = (false, none) := by
  refine ⟨rfl, ?_, ?_, rfl, ?_, ?_, rfl, rfl⟩
  · intro h
    simp [require_live_authorization, h]
  · intro h
    simp [require_live_authorization, not_lt.mpr h]
  · intro s hs
    simp [require_live_authorization, hs]
  · intro sup
    rfl

/-- Witness for C1: token "T", issued at 0 with TTL 30, checked at 0 and 31. -/
theorem live_unlock_C1_witness :
    (1 ≤ 30) ∧
    issue_live_unlock ['T'] 0 30 none = ((['T'], 30), some (['T'], 30)) ∧
    require_live_authorization (some ['T']) 0 (some (['T'], 30)) = .ok () ∧
    require_live_authorization (some ['T']) 31 (some (['T'], 30)) =
      .error .SAFETY_POLICY_BLOCK ∧
    require_live_authorization none 0 (some (['T'], 30)) = .error .SAFETY_POLICY_BLOCK ∧
    require_live_authorization (some ['w']) 0 (some (['T'], 30)) =
      .error .SAFETY_POLICY_BLOCK ∧
    require_live_authorization (some ['T']) 0 (clear_live_unlock (some (['T'], 30))) =
      .error .SAFETY_POLICY_BLOCK ∧
    live_unlock_status 0 (clear_live_unlock (some (['T'], 30))) = (false, none) := by
  have h := live_unlock_C1 ['T'] 0 30 0 none (by decide)
  have h31 := live_unlock_C1 ['T'] 0 30 31 none (by decide)
  exact ⟨by decide, h.1, h.2.1 (by decide), h31.2.2.1 (by decide), h.2.2.2.1,
    h.2.2.2.2.1 ['w'] (by decide), h.2.2.2.2.2.2.1, h.2.2.2.2.2.2.2⟩

/-- C7: symbol policy — blocked with `SAFETY_POLICY_BLOCK` exactly when the
allow list is non-empty and the uppercased symbol is not a case-insensitive
member, or the symbol is a case-insensitive member of the block list (the
block list wins regardless of the allow-list outcome, including when the
symbol is also allow-listed or the allow list is empty); it passes otherwise. -/
theorem check_symbol_C7 (allow block : List (List Char)) (s : List Char) :
    (check_symbol allow block s = .error .SAFETY_POLICY_BLOCK ↔
      (allow ≠ [] ∧ upperSym s ∉ allow.map upperSym) ∨
        upperSym s ∈ block.map upperSym) ∧
    (check_symbol allow block s = .ok () ↔
      ¬ ((allow ≠ [] ∧ upperSym s ∉ allow.map upperSym) ∨
        upperSym s ∈ block.map upperSym)) := by
  have hmap : allow.map upperSym = [] ↔ allow = [] := by
    cases allow <;> simp
  simp only [check_symbol]
  by_cases h1 : allow.map upperSym ≠ [] ∧ upperSym s ∉ allow.map upperSym
  · rw [if_pos h1]
    obtain ⟨hne, hnm⟩ := h1
    have hallow : allow ≠ [] := fun hh => hne (by simp [hh])
    constructor
    · simp [hallow, hnm]
    · simp [hallow, hnm]
  · rw [if_neg h1]
    push_neg at h1
    by_cases h2 : upperSym s ∈ block.map upperSym
    · rw [if_pos h2]
      constructor
      · simp [h2]
      · simp [h2]
    · rw [if_neg h2]
      have hmem : allow ≠ [] → upperSym s ∈ allow.map upperSym :=
        fun ha => h1 fun hh => ha (hmap.mp hh)
      have hrhs : ¬ ((allow ≠ [] ∧ upperSym s ∉ allow.map upperSym) ∨
          upperSym s ∈ block.map upperSym) := by
        rintro (⟨ha, hnm⟩ | hb)
        · exact hnm (hmem ha)
        · exact h2 hb
      exact ⟨⟨fun hcontr => Except.noConfusion hcontr, fun hr => absurd hr hrhs⟩,
        ⟨fun _ => hrhs, fun _ => rfl⟩⟩

/-- Witness for C7: TSLA blocked with an empty allow list; aapl allowed
case-insensitively under an AAPL allow list. -/
theorem check_symbol_C7_witness :
    check_symbol [] [['T', 'S', 'L', 'A']] ['t', 's', 'l', 'a'] =
      .error .SAFETY_POLICY_BLOCK ∧
    check_symbol [symAAPL] [] ['a', 'a', 'p', 'l'] = .ok () := by
  have h1 := check_symbol_C7 [] [['T', 'S', 'L', 'A']] ['t', 's', 'l', 'a']
  have h2 := check_symbol_C7 [symAAPL] [] ['a', 'a', 'p', 'l']
  exact ⟨h1.1.mpr (by decide), h2.2.mpr (by decide)⟩

/-- The non-empty-window branch of `check_trading_window`, phrased through
`parseWindow`. -/
theorem check_tw_some_eq (s : List Char) (hs : s ≠ []) (now : ℕ) :
    check_trading_window (some s) now =
      (match parseWindow s with
      | none => .error .VALIDATION_ERROR
      | some (a, b) =>
        if a ≤ b then
          if a ≤ now ∧ now ≤ b then .ok () else .error .SAFETY_POLICY_BLOCK
        else
          if now ≥ a ∨ now ≤ b then .ok () else .error .SAFETY_POLICY_BLOCK) := by
  simp only [check_trading_window, parseWindow]
  rw [if_neg hs]
  by_cases hc : (stripChars s).contains '-'
  · rw [if_pos hc, if_pos hc]
    cases hstart : strptimeHM ((stripChars s).takeWhile fun c => c != '-') <;>
      cases hend : strptimeHM (((stripChars s).dropWhile fun c => c != '-').drop 1) <;>
        simp
  · rw [if_neg hc, if_neg hc]

/-- C8 (amended): an unset window passes for every time, and so does the
set-but-empty window string (Python falsiness); a non-empty string that
does not parse as HH:MM-HH:MM fails with `VALIDATION_ERROR`; a parsed
window with start ≤ end passes iff start ≤ now ≤ end (inclusive), and one
with start > end (midnight wraparound) passes iff now ≥ start or
now ≤ end, failing with `SAFETY_POLICY_BLOCK` otherwise. -/
theorem trading_window_C8 (s : List Char) (now : ℕ) :
    check_trading_window none now = .ok () ∧
    check_trading_window (some []) now = .ok () ∧
    (s ≠ [] → parseWindow s = none →
      check_trading_window (some s) now = .error .VALIDATION_ERROR) ∧
    (∀ a b, parseWindow s = some (a, b) → a ≤ b →
      check_trading_window (some s) now =
        if a ≤ now ∧ now ≤ b then .ok () else .error .SAFETY_POLICY_BLOCK) ∧
    (∀ a b, parseWindow s = some (a, b) → b < a →
      check_trading_window (some s) now =
        if now ≥ a ∨ now ≤ b then .ok () else .error .SAFETY_POLICY_BLOCK) := by
  have hnil : parseWindow [] = none := rfl
  refine ⟨rfl, rfl, ?_, ?_, ?_⟩
  · intro hs hpw
    rw [check_tw_some_eq s hs now, hpw]
  · intro a b hpw hle
    have hs : s ≠ [] := by
      rintro rfl
      rw [hnil] at hpw
      exact Option.noConfusion hpw
    rw [check_tw_some_eq s hs now, hpw]
    simp only [hle, if_true, if_pos hle]
  · intro a b hpw hlt
    have hs : s ≠ [] := by
      rintro rfl
      rw [hnil] at hpw
      exact Option.noConfusion hpw
    rw [check_tw_some_eq s hs now, hpw]
    simp only [if_neg (not_le.mpr hlt)]

/-- Counterexample for C8 as stated: the empty string is not parseable as
HH:MM-HH:MM, yet the check passes instead of failing with
`VALIDATION_ERROR` (Python `if not self.config.trading_window`). -/
theorem trading_window_C8_cex :
    check_trading_window (some []) 0 = .ok () ∧
    parseWindow [] = none ∧
    check_trading_window (some []) 0 ≠ .error .VALIDATION_ERROR := by
  exact ⟨rfl, rfl, fun h => Except.noConfusion h⟩

/-- Witness for C8: a malformed window, the 09:00-10:00 window at 12:00,
and the wrapping 23:00-02:00 window at 01:00 (times in seconds). -/
theorem trading_window_C8_witness :
    check_trading_window (some ['b', 'a', 'd']) 0 = .error .VALIDATION_ERROR ∧
    check_trading_window (some ['0', '9', ':', '0', '0', '-', '1', '0', ':', '0', '0']) 43200 =
      .error .SAFETY_POLICY_BLOCK ∧
    check_trading_window (some ['2', '3', ':', '0', '0', '-', '0', '2', ':', '0', '0']) 3600 =
      .ok () := by
  have h1 := trading_window_C8 ['b', 'a', 'd'] 0
  have h2 := trading_window_C8 ['0', '9', ':', '0', '0', '-', '1', '0', ':', '0', '0'] 43200
  have h3 := trading_window_C8 ['2', '3', ':', '0', '0', '-', '0', '2', ':', '0', '0'] 3600
  refine ⟨h1.2.2.1 (by decide) (by decide), ?_, ?_⟩
  · rw [h2.2.2.2.1 32400 36000 (by decide) (by decide), if_neg (by decide)]
  · rw [h3.2.2.2.2 82800 7200 (by decide) (by decide), if_pos (by decide)]

/-- Counterexample for C4 as stated: a market order with both `quantity`
and `notional_usd` set passes `validate_order`, though the claim calls
for exactly-one and hence a `VALIDATION_ERROR`. -/
theorem stock_validate_C4_cex :
    stockBothSet.order_type = .market ∧
    stockBothSet.quantity = some 1 ∧
    stockBothSet.notional_usd = some 5 ∧
    OrderIntentStock.validate_order stockBothSet = .ok stockBothSet := by
  refine ⟨rfl, rfl, rfl, ?_⟩
  simp [OrderIntentStock.validate_order, stockBothSet]

/-- C4 (amended): `StockIntent` construction fails with `VALIDATION_ERROR`
iff `quantity` and `notional_usd` are both absent, or `order_type=limit`
without `limit_price`, or `order_type=stop_limit` without `limit_price`
or `stop_price`; it succeeds otherwise — both funding fields may be set
together, and `notional_usd` is accepted on non-market orders. -/
theorem stock_validate_C4 (s : OrderIntentStock) :
    (OrderIntentStock.validate_order s = .error .VALIDATION_ERROR ↔
      (s.quantity = none ∧ s.notional_usd = none) ∨
        (s.order_type = .limit ∧ s.limit_price = none) ∨
        (s.order_type = .stop_limit ∧ (s.limit_price = none ∨ s.stop_price = none))) ∧
    (OrderIntentStock.validate_order s = .ok s ↔
      ¬ ((s.quantity = none ∧ s.notional_usd = none) ∨
        (s.order_type = .limit ∧ s.limit_price = none) ∨
        (s.order_type = .stop_limit ∧ (s.limit_price = none ∨ s.stop_price = none)))) := by
  unfold OrderIntentStock.validate_order
  split_ifs with h1 h2 h3
  · constructor
    · simp [h1]
    · simp [h1]
  · constructor
    · simp [h2]
    · simp [h2]
  · constructor
    · simp [h3]
    · simp [h3]
  · constructor
    · constructor
      · intro hcontr
        exact absurd hcontr (by simp)
      · intro hr
        exact absurd hr (by tauto)
    · constructor
      · intro _
        tauto
      · intro _
        rfl

/-- Witness for C4: the valid stop-limit intent is accepted, matching the
amended characterization. -/
theorem stock_validate_C4_witness :
    OrderIntentStock.validate_order stockStopLimitIntent = .ok stockStopLimitIntent := by
  exact (stock_validate_C4 stockStopLimitIntent).2.mpr (by decide)

/-- Counterexample for C3 as stated: the valid stop-limit intent with
quantity 2, limit 10, stop 12 estimates `2 * 10 = 20` (the
`quantity and limit_price` branch fires first), not `2 * 12 = 24` as the
claim's stop-price rule demands. -/
theorem stock_estimate_C3_cex :
    OrderIntentStock.validate_order stockStopLimitIntent = .ok stockStopLimitIntent ∧
    stockStopLimitIntent.order_type = .stop_limit ∧
    stockStopLimitIntent.quantity = some 2 ∧
    stockStopLimitIntent.stop_price = some 12 ∧
    estimate_notional (.stock stockStopLimitIntent) = 20 ∧
    stockStopLimitIntent.quantity.getD 0 * stockStopLimitIntent.stop_price.getD 0 = 24 ∧
    (20 : ℚ) ≠ 24 := by
  refine ⟨?_, rfl, rfl, rfl, ?_, ?_, by norm_num⟩
  · simp [OrderIntentStock.validate_order, stockStopLimitIntent]
  · norm_num [estimate_notional, stockStopLimitIntent, truthy]
  · norm_num [stockStopLimitIntent]

/-- C3 (amended): the stock estimate is `notional_usd` when truthy
(non-null, nonzero); else `quantity * limit_price` when both are truthy,
regardless of order type; else `quantity * stop_price` when both are
truthy; else `0` — in particular a valid stop-limit intent with truthy
quantity and limit price estimates `quantity * limit_price`. -/
theorem stock_estimate_C3 (s : OrderIntentStock) :
    (truthy s.notional_usd = true →
      estimate_notional (.stock s) = s.notional_usd.getD 0) ∧
    (truthy s.notional_usd = false → truthy s.quantity = true →
      truthy s.limit_price = true →
      estimate_notional (.stock s) = s.quantity.getD 0 * s.limit_price.getD 0) ∧
    (truthy s.notional_usd = false → truthy s.limit_price = false →
      truthy s.quantity = true → truthy s.stop_price = true →
      estimate_notional (.stock s) = s.quantity.getD 0 * s.stop_price.getD 0) ∧
    (truthy s.notional_usd = false →
      (truthy s.quantity = false ∨
        (truthy s.limit_price = false ∧ truthy s.stop_price = false)) →
      estimate_notional (.stock s) = 0) ∧
    (s.order_type = .stop_limit → OrderIntentStock.validate_order s = .ok s →
      truthy s.notional_usd = false → truthy s.quantity = true →
      truthy s.limit_price = true →
      estimate_notional (.stock s) = s.quantity.getD 0 * s.limit_price.getD 0) := by
  refine ⟨?_, ?_, ?_, ?_, ?_⟩
  · intro h1
    simp [estimate_notional, h1]
  · intro h1 h2 h3
    simp [estimate_notional, h1, h2, h3]
  · intro h1 h2 h3 h4
    simp [estimate_notional, h1, h2, h3, h4]
  · intro h1 h2
    rcases h2 with hq | ⟨hl, hsp⟩
    · simp [estimate_notional, h1, hq]
    · simp [estimate_notional, h1, hl, hsp]
  · intro _ _ h1 h2 h3
    simp [estimate_notional, h1, h2, h3]

/-- Witness for C3 at the concrete stop-limit intent: its estimate is
`quantity * limit_price`. -/
theorem stock_estimate_C3_witness :
    estimate_notional (.stock stockStopLimitIntent) =
      stockStopLimitIntent.quantity.getD 0 * stockStopLimitIntent.limit_price.getD 0 := by
  have h := stock_estimate_C3 stockStopLimitIntent
  exact h.2.2.2.2 rfl (by simp [OrderIntentStock.validate_order, stockStopLimitIntent])
    rfl rfl rfl

/-- Counterexample for C5 as stated: a market stock intent funded by
`notional_usd = -5` passes construct-time validation, yet its estimate is
`-5 < 0`. -/
theorem estimate_nonneg_C5_cex :
    validate_intent (.stock stockNegNotional) = .ok (.stock stockNegNotional) ∧
    estimate_notional (.stock stockNegNotional) = -5 ∧
    estimate_notional (.stock stockNegNotional) < 0 := by
  refine ⟨?_, ?_, ?_⟩
  · simp [validate_intent, OrderIntentStock.validate_order, stockNegNotional, Except.map]
  · norm_num [estimate_notional, stockNegNotional, truthy]
  · norm_num [estimate_notional, stockNegNotional, truthy]

/-- C5 (amended): for every intent that passes its variant's construct-time
validation and whose numeric amount/price fields are nonnegative, the
estimator returns a value `≥ 0`, with no error conditions; validation
alone does not bound the sign of those fields. -/
theorem estimate_nonneg_C5 (i : OrderIntent) (_hv : validate_intent i = .ok i)
    (hnn : nonnegFields i) : 0 ≤ estimate_notional i := by
  cases i with
  | stock s =>
    obtain ⟨hq, hn, hl, hsp⟩ := hnn
    simp only [estimate_notional]
    split_ifs
    · exact optNonneg_getD hn
    · exact mul_nonneg (optNonneg_getD hq) (optNonneg_getD hl)
    · exact mul_nonneg (optNonneg_getD hq) (optNonneg_getD hsp)
    · exact le_refl 0
  | crypto c =>
    obtain ⟨hq, hn, hl⟩ := hnn
    simp only [estimate_notional]
    split_ifs
    · exact optNonneg_getD hn
    · exact mul_nonneg (optNonneg_getD hq) (optNonneg_getD hl)
    · exact le_refl 0
  | optionSingle o =>
    obtain ⟨hp, hl, hq⟩ := hnn
    simp only [estimate_notional]
    have hpx : 0 ≤ (match o.price with
        | some p => some p
        | none => o.limit_price).getD 0 := by
      cases hP : o.price with
      | some p =>
        have : optNonneg (some p) := hP ▸ hp
        simpa [optNonneg] using this
      | none => exact optNonneg_getD hl
    have hqq : (0 : ℚ) ≤ (o.quantity : ℚ) := by exact_mod_cast hq
    exact mul_nonneg (mul_nonneg hpx hqq) (by norm_num)
  | optionSpread sp =>
    obtain ⟨hp, hq⟩ := hnn
    have hqq : (0 : ℚ) ≤ (sp.quantity : ℚ) := by exact_mod_cast hq
    exact mul_nonneg (mul_nonneg hp hqq) (by norm_num)

/-- Witness for C5 at a valid market intent funded by `notional_usd = 55`. -/
theorem estimate_nonneg_C5_witness :
    validate_intent (.stock stockMarketNotional) = .ok (.stock stockMarketNotional) ∧
    nonnegFields (.stock stockMarketNotional) ∧
    0 ≤ estimate_notional (.stock stockMarketNotional) := by
  have hv : validate_intent (.stock stockMarketNotional) = .ok (.stock stockMarketNotional) := by
    simp [validate_intent, OrderIntentStock.validate_order, stockMarketNotional, Except.map]
  have hnn : nonnegFields (.stock stockMarketNotional) := by
    refine ⟨?_, ?_, ?_, ?_⟩ <;> simp [stockMarketNotional, optNonneg]
  exact ⟨hv, hnn, estimate_nonneg_C5 _ hv hnn⟩

/-- C2: `enforce` runs the fixed pipeline — symbol policy, trading window,
per-order cap, per-day cap — stopping at the first failure: a symbol or
window error propagates as-is; with both passing, a set `max_order_notional`
strictly below the estimate blocks with `SAFETY_POLICY_BLOCK`; with the
order cap passing, a set `max_daily_notional` strictly below
`today + estimate` blocks with `SAFETY_POLICY_BLOCK`; and when every check
passes the result's `estimated_notional` equals `estimate_notional intent`. -/
theorem enforce_pipeline_C2 (cfg : SafetyConfig) (day now : ℕ)
    (intent : OrderIntent) (l : Ledger) :
    (∀ e, check_symbol cfg.allow_symbols cfg.block_symbols intent.symbol = .error e →
      enforce cfg day now intent l = (.error e, l)) ∧
    (∀ e, check_symbol cfg.allow_symbols cfg.block_symbols intent.symbol = .ok () →
      check_trading_window cfg.trading_window now = .error e →
      enforce cfg day now intent l = (.error e, l)) ∧
    (∀ cap, check_symbol cfg.allow_symbols cfg.block_symbols intent.symbol = .ok () →
      check_trading_window cfg.trading_window now = .ok () →
      cfg.max_order_notional = some cap → estimate_notional intent > cap →
      enforce cfg day now intent l = (.error .SAFETY_POLICY_BLOCK, l)) ∧
    (∀ cap, check_symbol cfg.allow_symbols cfg.block_symbols intent.symbol = .ok () →
      check_trading_window cfg.trading_window now = .ok () →
      check_order_cap cfg.max_order_notional (estimate_notional intent) = .ok () →
      cfg.max_daily_notional = some cap →
      today_notional day l + estimate_notional intent > cap →
      enforce cfg day now intent l = (.error .SAFETY_POLICY_BLOCK, l)) ∧
    (check_symbol cfg.allow_symbols cfg.block_symbols intent.symbol = .ok () →
      check_trading_window cfg.trading_window now = .ok () →
      check_order_cap cfg.max_order_notional (estimate_notional intent) = .ok () →
      check_daily_cap cfg.max_daily_notional (today_notional day l)
        (estimate_notional intent) = .ok () →
      enforce cfg day now intent l = (.ok ⟨estimate_notional intent⟩, l)) := by
  refine ⟨?_, ?_, ?_, ?_, ?_⟩
  · intro e hsym
    simp [enforce, hsym]
  · intro e hsym hwin
    simp [enforce, hsym, hwin]
  · intro cap hsym hwin hcap hgt
    simp [enforce, hsym, hwin, check_order_cap, hcap, hgt]
  · intro cap hsym hwin hord hcap hgt
    simp [enforce, hsym, hwin, hord, check_daily_cap, hcap, hgt]
  · intro hsym hwin hord hday
    simp [enforce, hsym, hwin, hord, hday]

/-- Witness for C2: caps 500/700, a fresh ledger and a 1-share limit order
at 100 — every check passes and the result carries the estimate 100. -/
theorem enforce_pipeline_C2_witness :
    enforce cfgCaps 0 0 (.stock stockLimit100) [] =
      (.ok ⟨estimate_notional (.stock stockLimit100)⟩, []) ∧
    estimate_notional (.stock stockLimit100) = 100 := by
  have h := enforce_pipeline_C2 cfgCaps 0 0 (.stock stockLimit100) []
  refine ⟨h.2.2.2.2 rfl rfl ?_ ?_, ?_⟩
  · norm_num [check_order_cap, cfgCaps, estimate_notional, stockLimit100, truthy]
  · norm_num [check_daily_cap, cfgCaps, today_notional, estimate_notional,
      stockLimit100, truthy]
  · norm_num [estimate_notional, stockLimit100, truthy]
